import Mathlib

/-!
Shallow embedding of `src/pages/index.tsx`: a customer-list page with an
add-customer dialog. Lean `String` models JS strings, `Option` models
optional fields, and JS truthiness of a string is modelled as non-emptiness.
Network effects are modelled by passing the outcome of the request as an
explicit argument and recording the observable effects as an event trace.
-/

/-- The `Customer` type from index.tsx: `firstName`, `lastName`, `email`
required, `businessName` optional. -/
structure Customer where
  firstName : String
  lastName : String
  email : String
  businessName : Option String := none
  deriving DecidableEq

/-- `Customers = Customer[]`. -/
abbrev Customers := List Customer

/-- `ApiError = { code: string; message: string }`. -/
structure ApiError where
  code : String
  message : String
  deriving DecidableEq

/-- The dialog and draft-form React state of `Home`: the `open` flag, the
`newCustomer` fields, the separately managed `email`, and `emailError`.
The source initializes every text field to the empty string. -/
structure FormState where
  dialogOpen : Bool := false
  firstName : String := ""
  lastName : String := ""
  businessName : String := ""
  email : String := ""
  emailError : String := ""
  deriving DecidableEq

/-- The character class of the JS regex escape `\s` (ECMAScript WhiteSpace
and LineTerminator code points), as used by the email regex in `[^\s@]`. -/
def isJsWhitespace (c : Char) : Bool :=
  c == ' ' || c == '\t' || c == '\n' || c == '\x0b' || c == '\x0c' || c == '\r' ||
  c == '\u00A0' || c == '\u1680' || ('\u2000' ≤ c && c ≤ '\u200A') ||
  c == '\u2028' || c == '\u2029' || c == '\u202F' || c == '\u205F' ||
  c == '\u3000' || c == '\uFEFF'

/-- One character of the class `[^\s@]` of the email regex. -/
def isEmailChar (c : Char) : Bool := !isJsWhitespace c && c != '@'

/-- Splits a character list at its first `'@'`, returning the `'@'`-free
prefix and the remainder after the `'@'`; `none` when no `'@'` occurs. -/
def splitAtAmp : List Char → Option (List Char × List Char)
  | [] => none
  | c :: cs =>
    if c = '@' then some ([], cs)
    else
      match splitAtAmp cs with
      | none => none
      | some (l, r) => some (c :: l, r)

/-- `dotBeforeEnd l` holds when `l` contains a `'.'` with at least one
character strictly after it. -/
def dotBeforeEnd : List Char → Bool
  | [] => false
  | c :: cs => (c == '.' && !cs.isEmpty) || dotBeforeEnd cs

/-- `validateEmail` from index.tsx: the test of the regex
`/^[^\s@]+@[^\s@]+\.[^\s@]+$/`. Because `[^\s@]` excludes `'@'`, a match
decomposes uniquely at the first `'@'`: a non-empty all-`[^\s@]` local
part, the `'@'`, then a non-empty all-`[^\s@]` remainder that contains a
`'.'` which is neither its first nor its last character (the remainder is
`[^\s@]+ '.' [^\s@]+`, and `'.'` itself lies in `[^\s@]`). -/
def validateEmail (email : String) : Bool :=
  match splitAtAmp email.data with
  | none => false
  | some (l, r) =>
    !l.isEmpty && l.all isEmailChar && !r.isEmpty && r.all isEmailChar &&
    (match r with
     | [] => false
     | _ :: rest => dotBeforeEnd rest)

/-- The email shape described by the specification: `local@domain.tld` —
a non-empty whitespace-free `'@'`-free local part, a single `'@'` (single
because no part may contain `'@'`), then a non-empty whitespace-free
`'@'`-free remainder of the form `domain ++ "." ++ tld` with `domain` and
`tld` non-empty. -/
def EmailShape (s : String) : Prop :=
  ∃ l d t : List Char,
    s.data = l ++ '@' :: (d ++ '.' :: t) ∧
    l ≠ [] ∧ d ≠ [] ∧ t ≠ [] ∧
    (∀ c ∈ l, isEmailChar c = true) ∧
    (∀ c ∈ d ++ '.' :: t, isEmailChar c = true)

/-- `handleClickOpen` from index.tsx: `setOpen(true)`; no field is touched. -/
def handleClickOpen (st : FormState) : FormState := { st with dialogOpen := true }

/-- `handleClose` from index.tsx: `setOpen(false)` and reset of
`newCustomer`, `email` and `emailError` to empty strings. -/
def handleClose (_st : FormState) : FormState :=
  { dialogOpen := false, firstName := "", lastName := "", businessName := "",
    email := "", emailError := "" }

/-- The form state `handleClose` always produces: dialog closed, every
field blank. -/
def blankClosedForm : FormState :=
  { dialogOpen := false, firstName := "", lastName := "", businessName := "",
    email := "", emailError := "" }

/-- Outcome of the `POST /api/customers` issued by `handleAddCustomer`:
any 2xx (`success`, body not read), a non-2xx whose error body's JSON
parse may itself succeed or fail (`httpError`), or a rejected `fetch`
(`transportError`). -/
inductive PostResult where
  | success : PostResult
  | httpError : Except Unit ApiError → PostResult
  | transportError : PostResult

/-- Observable effects of the handlers, recorded in program order. -/
inductive UiEvent where
  | postSent : Customer → UiEvent
  | responseSeen : PostResult → UiEvent
  | mutateRequested : UiEvent
  | dialogClosed : UiEvent
  | consoleErrorLogged : UiEvent
  | emailErrorShown : String → UiEvent

/-- The JSON body `{...newCustomer, email}` of the POST: the three
`newCustomer` fields — `businessName` always included, possibly empty —
plus the separately held `email`. -/
def postBody (st : FormState) : Customer :=
  { firstName := st.firstName, lastName := st.lastName, email := st.email,
    businessName := some st.businessName }

/-- `handleAddCustomer` from index.tsx. An invalid email sets `emailError`
and returns before any request. Otherwise the POST is sent; on a rejected
`fetch` no response is ever seen and the `catch` only logs; on a non-2xx
the response is seen, its body parse result is thrown and the `catch` only
logs; on a 2xx, `mutate()` is requested and then `handleClose()` runs. -/
def handleAddCustomer (st : FormState) (post : PostResult) : FormState × List UiEvent :=
  if validateEmail st.email then
    match post with
    | PostResult.transportError =>
      (st, [UiEvent.postSent (postBody st), UiEvent.consoleErrorLogged])
    | PostResult.httpError b =>
      (st, [UiEvent.postSent (postBody st), UiEvent.responseSeen (PostResult.httpError b),
            UiEvent.consoleErrorLogged])
    | PostResult.success =>
      (handleClose st,
       [UiEvent.postSent (postBody st), UiEvent.responseSeen PostResult.success,
        UiEvent.mutateRequested, UiEvent.dialogClosed])
  else
    ({ st with emailError := "Please enter a valid email address" },
     [UiEvent.emailErrorShown "Please enter a valid email address"])

/-- The `disabled` condition of the Create button in index.tsx:
`!firstName || !lastName || !email || !validateEmail(email)` (JS string
falsiness is emptiness). -/
def createDisabled (st : FormState) : Bool :=
  st.firstName == "" || st.lastName == "" || st.email == "" || !validateEmail st.email

/-- A completed `fetch(url)`: either the promise rejected
(`transportFail`), or a response arrived carrying its `ok` flag and the
result of parsing its body as JSON. -/
inductive FetchOutcome (β : Type) where
  | transportFail : FetchOutcome β
  | response : Bool → Except Unit β → FetchOutcome β

/-- What the `fetcher` of index.tsx can throw: the transport rejection,
the rejection of `response.json()`, or — for a non-2xx response with a
readable body — the parsed body itself, unwrapped. -/
inductive FetchError (β : Type) where
  | transport : FetchError β
  | jsonParseFail : FetchError β
  | thrownBody : β → FetchError β

/-- `fetcher` from index.tsx: `await fetch`, then `await response.json()`
— so a body-parse failure propagates before `response.ok` is ever
consulted — then `if (!response.ok) throw body; return body`. -/
def fetcher {β : Type} : FetchOutcome β → Except (FetchError β) β
  | FetchOutcome.transportFail => Except.error FetchError.transport
  | FetchOutcome.response ok jsonResult =>
    match jsonResult with
    | Except.error _ => Except.error FetchError.jsonParseFail
    | Except.ok body =>
      if ok then Except.ok body else Except.error (FetchError.thrownBody body)

/-- The page-level state: the form state plus the `data` and `error`
exposed by `useSWR` for `GET /api/customers`. -/
structure PageModel where
  form : FormState := {}
  data : Option Customers := none
  fetchError : Option ApiError := none

/-- External events the page reacts to: completion of the list GET
(initial fetch or revalidation), the Add Customer button, the Cancel
button, dismissing the dialog (its `onClose`), and the Create button
together with the outcome of its POST. -/
inductive PageEvent where
  | fetchDone : Except ApiError Customers → PageEvent
  | addClick : PageEvent
  | cancelClick : PageEvent
  | dialogDismiss : PageEvent
  | createClick : PostResult → PageEvent

/-- One page transition. `fetchDone` is the SWR contract stated in the
specification (§4.1): a successful fetch replaces `data` and clears the
error; a failed fetch records the thrown `ApiError` and leaves prior
`data` untouched. The button and dialog events invoke the handlers of
index.tsx (`handleClickOpen`, `handleClose`, `handleAddCustomer`). -/
def pageStep (pm : PageModel) : PageEvent → PageModel × List UiEvent
  | PageEvent.fetchDone (Except.ok cs) =>
    ({ pm with data := some cs, fetchError := none }, [])
  | PageEvent.fetchDone (Except.error e) =>
    ({ pm with fetchError := some e }, [])
  | PageEvent.addClick => ({ pm with form := handleClickOpen pm.form }, [])
  | PageEvent.cancelClick => ({ pm with form := handleClose pm.form }, [])
  | PageEvent.dialogDismiss => ({ pm with form := handleClose pm.form }, [])
  | PageEvent.createClick post =>
    ({ pm with form := (handleAddCustomer pm.form post).1 },
     (handleAddCustomer pm.form post).2)

/-- The name cell of a table row in index.tsx:
`customer.businessName || firstName ++ " " ++ lastName`, where JS `||`
falls through both on a missing and on an empty `businessName`. -/
def nameCell (c : Customer) : String :=
  match c.businessName with
  | some b => if b == "" then c.firstName ++ " " ++ c.lastName else b
  | none => c.firstName ++ " " ++ c.lastName

/-- The header count of index.tsx:
`{data.length} {data.length === 1 ? "Customer" : "Customers"}`. -/
def countLabel (cs : Customers) : String :=
  toString cs.length ++ " " ++ (if cs.length == 1 then "Customer" else "Customers")

/-- What `Home` renders: the loading text, the error line, and the table —
its count label and one (name cell, email cell) pair per customer. -/
structure Rendered where
  loadingShown : Bool
  errorText : Option String
  table : Option (String × List (String × String))

/-- The render of `Home`: `isLoading && "Loading..."`,
`error && "Error: " ++ error.message`, and `data && <table>` — the error
line exists exactly when an error is present, the table exactly when data
is present. -/
def render (pm : PageModel) (isLoading : Bool) : Rendered :=
  { loadingShown := isLoading
    errorText := pm.fetchError.map (fun e => "Error: " ++ e.message)
    table := pm.data.map (fun cs =>
      (countLabel cs, cs.map (fun c => (nameCell c, c.email)))) }

/-- A concrete valid draft, used to instantiate hypotheses. -/
def validDraft : FormState :=
  { dialogOpen := true, firstName := "Jane", lastName := "Doe",
    businessName := "", email := "jane@doe.com", emailError := "" }

/-- A concrete draft whose email lacks a TLD. -/
def badEmailDraft : FormState :=
  { dialogOpen := true, firstName := "Bob", lastName := "Jones",
    businessName := "", email := "bob@example", emailError := "" }

/-- Concrete customers for the rendering scenarios. -/
def janeCustomer : Customer :=
  { firstName := "Jane", lastName := "Doe", email := "jane@doe.com" }

/-- A customer trading under a business name. -/
def acmeCustomer : Customer :=
  { firstName := "Al", lastName := "Smith", email := "al@acme.com",
    businessName := some "Acme" }

/-- A third customer. -/
def bobCustomer : Customer :=
  { firstName := "Bob", lastName := "Jones", email := "bob@jones.com" }

/-- A customer whose `businessName` is present but equal to `""`. -/
def emptyBizCustomer : Customer :=
  { firstName := "Jo", lastName := "Doe", email := "jo@doe.com",
    businessName := some "" }

/-- Soundness of `splitAtAmp`: a successful split recovers the input and
its prefix is `'@'`-free. -/
theorem splitAtAmp_sound : ∀ {cs l r : List Char},
    splitAtAmp cs = some (l, r) → cs = l ++ '@' :: r ∧ '@' ∉ l := by
  intro cs
  induction cs with
  | nil => intro l r h; simp [splitAtAmp] at h
  | cons c cs ih =>
    intro l r h
    by_cases hc : c = '@'
    · subst hc
      simp [splitAtAmp] at h
      obtain ⟨hl, hr⟩ := h
      subst hl; subst hr
      simp
    · rw [splitAtAmp, if_neg hc] at h
      cases hs : splitAtAmp cs with
      | none => rw [hs] at h; exact Option.noConfusion h
      | some pr =>
        obtain ⟨l', r'⟩ := pr
        rw [hs] at h
        simp only [Option.some.injEq, Prod.mk.injEq] at h
        obtain ⟨hl, hr⟩ := h
        subst hl; subst hr
        obtain ⟨hcs, hnotin⟩ := ih hs
        refine ⟨by rw [hcs]; rfl, ?_⟩
        intro hmem
        rcases List.mem_cons.mp hmem with h1 | h2
        · exact hc h1.symm
        · exact hnotin h2

/-- Completeness of `splitAtAmp`: it finds the split at an `'@'` whose
prefix is `'@'`-free. -/
theorem splitAtAmp_complete : ∀ {l : List Char} (r : List Char),
    '@' ∉ l → splitAtAmp (l ++ '@' :: r) = some (l, r) := by
  intro l
  induction l with
  | nil => intro r _; simp [splitAtAmp]
  | cons a l ih =>
    intro r hn
    have ha : ¬(a = '@') := fun h => hn (by rw [h]; exact List.mem_cons_self _ _)
    have hn' : '@' ∉ l := fun h => hn (List.mem_cons_of_mem _ h)
    rw [List.cons_append, splitAtAmp, if_neg ha, ih r hn']

/-- `dotBeforeEnd` holds exactly when the list splits around a `'.'` with
a non-empty tail after it. -/
theorem dotBeforeEnd_iff : ∀ {l : List Char},
    dotBeforeEnd l = true ↔ ∃ p q, l = p ++ '.' :: q ∧ q ≠ [] := by
  intro l
  induction l with
  | nil =>
    constructor
    · intro h; simp [dotBeforeEnd] at h
    · rintro ⟨p, q, h, -⟩; cases p <;> simp at h
  | cons c cs ih =>
    constructor
    · intro h
      rw [dotBeforeEnd, Bool.or_eq_true, Bool.and_eq_true] at h
      rcases h with ⟨hc, hne⟩ | h
      · refine ⟨[], cs, ?_, ?_⟩
        · rw [List.nil_append, beq_iff_eq.mp hc]
        · intro hnil
          rw [hnil] at hne
          exact Bool.noConfusion hne
      · obtain ⟨p, q, hcs, hq⟩ := ih.mp h
        exact ⟨c :: p, q, by rw [hcs]; rfl, hq⟩
    · rintro ⟨p, q, hsplit, hq⟩
      rw [dotBeforeEnd, Bool.or_eq_true]
      cases p with
      | nil =>
        left
        rw [List.nil_append] at hsplit
        injection hsplit with h1 h2
        rw [Bool.and_eq_true, beq_iff_eq]
        refine ⟨h1, ?_⟩
        rw [h2]
        cases q with
        | nil => exact absurd rfl hq
        | cons a q => rfl
      | cons a p =>
        right
        rw [List.cons_append] at hsplit
        injection hsplit with h1 h2
        exact ih.mpr ⟨p, q, h2, hq⟩

/-- A list of `[^\s@]` characters contains no `'@'`. -/
theorem amp_not_mem_of_emailChars {l : List Char}
    (h : ∀ c ∈ l, isEmailChar c = true) : '@' ∉ l :=
  fun hm => absurd (h '@' hm) (by decide)

/-- The regex of `validateEmail` accepts exactly the strings of shape
`local@domain.tld`. -/
theorem validateEmail_iff_emailShape (s : String) :
    validateEmail s = true ↔ EmailShape s := by
  rw [validateEmail]
  split
  · rename_i hs
    constructor
    · intro h; exact Bool.noConfusion h
    · rintro ⟨l, d, t, hdec, -, -, -, hlc, -⟩
      have hc := splitAtAmp_complete (l := l) (d ++ '.' :: t)
        (amp_not_mem_of_emailChars hlc)
      rw [← hdec, hs] at hc
      exact Option.noConfusion hc
  · rename_i l r hs
    obtain ⟨hdec, hnl⟩ := splitAtAmp_sound hs
    constructor
    · intro h
      simp only [Bool.and_eq_true] at h
      obtain ⟨⟨⟨⟨hle, hla⟩, hre⟩, hra⟩, hdot⟩ := h
      cases r with
      | nil => exact Bool.noConfusion hdot
      | cons r0 rest =>
        obtain ⟨p, q, hrest, hq⟩ := dotBeforeEnd_iff.mp hdot
        cases l with
        | nil => exact Bool.noConfusion hle
        | cons l0 l' =>
          refine ⟨l0 :: l', r0 :: p, q, ?_, List.cons_ne_nil _ _,
            List.cons_ne_nil _ _, hq, ?_, ?_⟩
          · rw [hdec, hrest]; rfl
          · exact fun c hc => List.all_eq_true.mp hla c hc
          · intro c hc
            apply List.all_eq_true.mp hra c
            rw [hrest]
            exact hc
    · rintro ⟨l', d, t, hdec', hl', hd, ht, hlc, hrc⟩
      have hc := splitAtAmp_complete (l := l') (d ++ '.' :: t)
        (amp_not_mem_of_emailChars hlc)
      rw [← hdec', hs] at hc
      simp only [Option.some.injEq, Prod.mk.injEq] at hc
      obtain ⟨hll, hrr⟩ := hc
      subst hll
      subst hrr
      cases d with
      | nil => exact absurd rfl hd
      | cons d0 d' =>
        simp only [Bool.and_eq_true]
        refine ⟨⟨⟨⟨?_, List.all_eq_true.mpr hlc⟩, ?_⟩, List.all_eq_true.mpr hrc⟩, ?_⟩
        · cases l with
          | nil => exact absurd rfl hl'
          | cons a l2 => rfl
        · rfl
        · exact dotBeforeEnd_iff.mpr ⟨d', t, rfl, ht⟩

/-- Claim C1: for every draft form state the Create button is enabled
(`createDisabled st = false`) iff `firstName`, `lastName` and `email` are
all non-empty and the email passes `validateEmail`; `businessName` never
affects the condition. -/
theorem C1_create_button_enabled_iff (st : FormState) :
    (createDisabled st = false ↔
      st.firstName ≠ "" ∧ st.lastName ≠ "" ∧ st.email ≠ "" ∧
        validateEmail st.email = true) ∧
    (∀ b, createDisabled { st with businessName := b } = createDisabled st) := by
  constructor
  · cases hv : validateEmail st.email <;>
      simp [createDisabled, hv, Bool.or_eq_false_iff, beq_eq_false_iff_ne, and_assoc]
  · intro b; rfl

/-- Claim C2: `validateEmail` accepts exactly the `local@domain.tld`
shape; `"bob@example"` fails it; and `handleAddCustomer` on a draft whose
email fails the check sets `emailError` to the fixed message and issues no
POST. -/
theorem C2_email_validation (s : String) :
    (validateEmail s = true ↔ EmailShape s) ∧
    validateEmail "bob@example" = false ∧
    (∀ (st : FormState) (post : PostResult), validateEmail st.email = false →
      handleAddCustomer st post =
        ({ st with emailError := "Please enter a valid email address" },
         [UiEvent.emailErrorShown "Please enter a valid email address"]) ∧
      (∀ b, UiEvent.postSent b ∉ (handleAddCustomer st post).2)) := by
  refine ⟨validateEmail_iff_emailShape s, by decide, ?_⟩
  intro st post hv
  constructor
  · simp [handleAddCustomer, hv]
  · intro b
    simp [handleAddCustomer, hv]

/-- Witness for C2 at the concrete draft `badEmailDraft`. -/
theorem C2_email_validation_witness :
    validateEmail "bob@example" = false ∧
    (handleAddCustomer badEmailDraft PostResult.success).1.emailError =
      "Please enter a valid email address" :=
  ⟨(C2_email_validation "bob@example").2.1,
   by rw [((C2_email_validation "bob@example").2.2 badEmailDraft PostResult.success
       (by decide)).1]⟩

/-- Claim C3: when the POST fails (non-2xx response or transport error),
the failure is only logged: the form state — the open dialog and every
field the user last typed, `emailError` included — is unchanged, no
revalidation is requested, the dialog is not closed, and no message is
shown to the user. -/
theorem C3_post_failure_swallowed (st : FormState) (post : PostResult)
    (hv : validateEmail st.email = true) (hp : post ≠ PostResult.success) :
    (handleAddCustomer st post).1 = st ∧
    UiEvent.consoleErrorLogged ∈ (handleAddCustomer st post).2 ∧
    UiEvent.mutateRequested ∉ (handleAddCustomer st post).2 ∧
    UiEvent.dialogClosed ∉ (handleAddCustomer st post).2 ∧
    (∀ msg, UiEvent.emailErrorShown msg ∉ (handleAddCustomer st post).2) := by
  cases post with
  | success => exact absurd rfl hp
  | httpError b => simp [handleAddCustomer, hv]
  | transportError => simp [handleAddCustomer, hv]

/-- Witness for C3: a transport failure at `validDraft` leaves the form
untouched. -/
theorem C3_post_failure_swallowed_witness :
    (handleAddCustomer validDraft PostResult.transportError).1 = validDraft :=
  (C3_post_failure_swallowed validDraft PostResult.transportError (by decide)
    (fun h => PostResult.noConfusion h)).1

/-- Claim C4: a 2xx POST yields the closed blank form and the event order
post sent, response seen, revalidation requested, dialog closed; in any
trace of `handleAddCustomer` a revalidation request is preceded by the
observed response; and a page step changes the displayed `data` only when
it is a successful fetch completion — never by the submit itself. -/
theorem C4_success_revalidates_then_closes (st : FormState)
    (hv : validateEmail st.email = true) :
    handleAddCustomer st PostResult.success =
      (blankClosedForm,
       [UiEvent.postSent (postBody st), UiEvent.responseSeen PostResult.success,
        UiEvent.mutateRequested, UiEvent.dialogClosed]) ∧
    (∀ post l1 l2, (handleAddCustomer st post).2 =
        l1 ++ UiEvent.mutateRequested :: l2 →
      UiEvent.responseSeen post ∈ l1) ∧
    (∀ (pm : PageModel) (e : PageEvent), (pageStep pm e).1.data ≠ pm.data →
      ∃ cs, e = PageEvent.fetchDone (Except.ok cs) ∧
        (pageStep pm e).1.data = some cs) := by
  refine ⟨by simp [handleAddCustomer, hv, blankClosedForm, handleClose], ?_, ?_⟩
  · intro post l1 l2 h
    cases post with
    | success =>
      simp only [handleAddCustomer, hv, if_true] at h
      rcases l1 with _ | ⟨a, _ | ⟨b, _ | ⟨c, _ | ⟨d, l⟩⟩⟩⟩ <;> simp_all
    | httpError eb =>
      simp only [handleAddCustomer, hv, if_true] at h
      rcases l1 with _ | ⟨a, _ | ⟨b, _ | ⟨c, _ | ⟨d, l⟩⟩⟩⟩ <;> simp_all
    | transportError =>
      simp only [handleAddCustomer, hv, if_true] at h
      rcases l1 with _ | ⟨a, _ | ⟨b, _ | ⟨c, _ | ⟨d, l⟩⟩⟩⟩ <;> simp_all
  · intro pm e hne
    cases e with
    | fetchDone res =>
      cases res with
      | ok cs => exact ⟨cs, rfl, rfl⟩
      | error er => exact absurd rfl hne
    | addClick => exact absurd rfl hne
    | cancelClick => exact absurd rfl hne
    | dialogDismiss => exact absurd rfl hne
    | createClick post => exact absurd rfl hne

/-- Witness for C4: the concrete success transition at `validDraft`. -/
theorem C4_success_revalidates_then_closes_witness :
    handleAddCustomer validDraft PostResult.success =
      (blankClosedForm,
       [UiEvent.postSent (postBody validDraft),
        UiEvent.responseSeen PostResult.success,
        UiEvent.mutateRequested, UiEvent.dialogClosed]) :=
  (C4_success_revalidates_then_closes validDraft (by decide)).1

/-- Claim C5: every way of closing the dialog — the Cancel button, the
dialog `onClose`, or a successful submit — produces the blank closed form
(dialog flag false, all five fields empty), and reopening afterwards shows
the blank fields with only the dialog flag raised. -/
theorem C5_close_resets_all_fields (st : FormState) (pm : PageModel) :
    handleClose st = blankClosedForm ∧
    (blankClosedForm.dialogOpen = false ∧ blankClosedForm.firstName = "" ∧
      blankClosedForm.lastName = "" ∧ blankClosedForm.businessName = "" ∧
      blankClosedForm.email = "" ∧ blankClosedForm.emailError = "") ∧
    (pageStep pm PageEvent.cancelClick).1.form = blankClosedForm ∧
    (pageStep pm PageEvent.dialogDismiss).1.form = blankClosedForm ∧
    (validateEmail st.email = true →
      (handleAddCustomer st PostResult.success).1 = blankClosedForm) ∧
    handleClickOpen blankClosedForm = { blankClosedForm with dialogOpen := true } := by
  refine ⟨rfl, ⟨rfl, rfl, rfl, rfl, rfl, rfl⟩, rfl, rfl, ?_, rfl⟩
  intro hv
  simp [handleAddCustomer, hv, handleClose, blankClosedForm]

/-- Witness for C5: a successful submit from `validDraft` resets the
form. -/
theorem C5_close_resets_all_fields_witness :
    (handleAddCustomer validDraft PostResult.success).1 = blankClosedForm :=
  (C5_close_resets_all_fields validDraft {}).2.2.2.2.1 (by decide)

/-- Claim C6: for a non-2xx GET whose JSON body is
`{code:"500", message:"Server error"}`, the fetcher throws the parsed body
itself; starting from a page with no prior data, completing the fetch with
that error renders the text "Error: Server error" and no table; and in
general the table is rendered exactly when `data` is present. -/
theorem C6_get_error_renders_message_no_table :
    fetcher (FetchOutcome.response false
        (Except.ok (ApiError.mk "500" "Server error"))) =
      Except.error (FetchError.thrownBody (ApiError.mk "500" "Server error")) ∧
    (render (pageStep {} (PageEvent.fetchDone
        (Except.error (ApiError.mk "500" "Server error")))).1 false).errorText =
      some "Error: Server error" ∧
    (render (pageStep {} (PageEvent.fetchDone
        (Except.error (ApiError.mk "500" "Server error")))).1 false).table = none ∧
    (∀ (pm : PageModel) (b : Bool), (render pm b).table.isSome = pm.data.isSome) := by
  refine ⟨rfl, rfl, rfl, ?_⟩
  intro pm b
  cases hd : pm.data <;> simp [render, hd]

/-- Claim C7 as stated is false: `emptyBizCustomer` has a present
`businessName` (`some ""`), yet the name cell does not render that
businessName — it renders the first/last fallback "Jo Doe". -/
theorem C7_name_cell_counterexample :
    ¬ ∀ (c : Customer) (b : String), c.businessName = some b → nameCell c = b := by
  intro h
  have hc := h emptyBizCustomer "" rfl
  exact absurd hc (by decide)

/-- Claim C7 amended: the name cell renders `businessName` when it is
present and non-empty (e.g. "Acme", regardless of first/last name), and
renders `firstName ++ " " ++ lastName` when `businessName` is absent or
empty. -/
theorem C7_name_cell_amended (c : Customer) :
    (∀ b, c.businessName = some b → b ≠ "" → nameCell c = b) ∧
    ((c.businessName = none ∨ c.businessName = some "") →
      nameCell c = c.firstName ++ " " ++ c.lastName) := by
  constructor
  · intro b hb hne
    simp [nameCell, hb, hne]
  · rintro (hb | hb) <;> simp [nameCell, hb]

/-- Witness for the amended C7: "Acme" is rendered as is; a present-but-
empty businessName falls back to "Jo Doe". -/
theorem C7_name_cell_amended_witness :
    nameCell acmeCustomer = "Acme" ∧ nameCell emptyBizCustomer = "Jo Doe" :=
  ⟨(C7_name_cell_amended acmeCustomer).1 "Acme" rfl (by decide),
   by rw [(C7_name_cell_amended emptyBizCustomer).2 (Or.inr rfl)]; rfl⟩

/-- Claim C8: the header count renders the array length, a space, and
"Customer" exactly when the length is 1, else "Customers"; a 3-element
list reads "3 Customers" and a 1-element list reads "1 Customer". -/
theorem C8_count_label (cs : Customers) :
    countLabel cs =
      toString cs.length ++ " " ++
        (if cs.length = 1 then "Customer" else "Customers") ∧
    countLabel [janeCustomer, acmeCustomer, bobCustomer] = "3 Customers" ∧
    countLabel [janeCustomer] = "1 Customer" := by
  refine ⟨?_, by decide, by decide⟩
  by_cases h : cs.length = 1 <;> simp [countLabel, h]

/-- Claim C9: a customer whose `businessName` is present but empty is
rendered identically to one with no `businessName`: the name cell is the
`firstName ++ " " ++ lastName` fallback, because the display tests
`businessName` for JS falsiness, not presence. -/
theorem C9_empty_businessName_falls_back (fn ln em : String) :
    nameCell { firstName := fn, lastName := ln, email := em,
               businessName := some "" } =
      nameCell { firstName := fn, lastName := ln, email := em,
                 businessName := none } ∧
    nameCell { firstName := fn, lastName := ln, email := em,
               businessName := some "" } = fn ++ " " ++ ln := by
  constructor <;> rfl

/-- Claim C10: `fetcher` awaits the body parse before the `ok` check: a
non-2xx response with readable JSON throws the parsed body itself — not a
wrapped error — and a non-2xx response whose body is not valid JSON
surfaces as the JSON-parse failure, not as a thrown `ApiError` value. -/
theorem C10_fetcher_parses_body_before_ok (b : ApiError) :
    fetcher (FetchOutcome.response false (Except.ok b)) =
      Except.error (FetchError.thrownBody b) ∧
    fetcher (FetchOutcome.response false (Except.error ())) =
      (Except.error FetchError.jsonParseFail : Except (FetchError ApiError) ApiError) :=
  ⟨rfl, rfl⟩
